import Mathlib

/-!
Shallow embedding of the klaytn DynamoDB/S3 hybrid key-value store
(`dynamoDB` and `dynamoBatch` from the database adapter, `s3FileDB` from
`storage/database/s3filedb.go`), together with proofs settling the frozen
claims about it.

Bytes are modelled as `List Nat`; the DynamoDB table is an association
list from keys to row values (a row's `Val` is an `Option`, `none`
modelling a Go `nil` byte slice), and the S3 bucket is an association
list from hex-encoded object keys to bodies.  `PutItem` prepends and
lookups take the first match, which gives DynamoDB's replace semantics.
Fallible SDK calls that the claims quantify over (the S3 `PutObject`)
take an explicit fault flag; calls whose failures no claim mentions are
modelled as succeeding.
-/

namespace KlaytnDynamo

abbrev Bytes := List Nat

/-- Source constant `dynamoWriteSizeLimit = 400 * 1024`: the maximum
item size (key plus value) accepted inline by the table store. -/
def dynamoWriteSizeLimit : Nat := 400 * 1024

/-- Source constant `dynamoBatchSize = 25`: the maximum number of write
requests per `BatchWriteItem` call. -/
def dynamoBatchSize : Nat := 25

/-- Source constant `dynamoMaxRetry = 5`. -/
def dynamoMaxRetry : Nat := 5

/-- The byte string `"oversizeditem"` (source variable
`overSizedDataPrefix`): the sentinel stored as a row's `Val` when the
real value lives in the S3 blob store. -/
def overSizedData : Bytes :=
  [111, 118, 101, 114, 115, 105, 122, 101, 100, 105, 116, 101, 109]

/-- One lowercase hex digit, as its ASCII code (`hexutil` uses lowercase). -/
def hexDigitCode (n : Nat) : Nat := if n < 10 then 48 + n else 87 + n

/-- Two hex digits for one byte. -/
def byteToHexCode (b : Nat) : List Nat := [hexDigitCode (b / 16), hexDigitCode (b % 16)]

/-- Model of `hexutil.Encode`: `"0x"` followed by lowercase hex of the bytes,
modelled as the list of ASCII codes. -/
def hexEncode (bs : Bytes) : List Nat := 48 :: 120 :: (bs.map byteToHexCode).flatten

/-- Errors surfaced by the modelled operations. -/
inductive DBErr where
  | dataNotFound
  | blobNotFound
  | blobWriteFailed
deriving DecidableEq

/-- The persistent state: the DynamoDB table rows and the S3 bucket
objects.  A row value of `none` models a Go `nil` `Val` attribute. -/
structure Store where
  table : List (Bytes × Option Bytes)
  blobs : List (List Nat × Bytes)
deriving DecidableEq

/-- The empty store. -/
def store0 : Store := { table := [], blobs := [] }

/-- Model of `PutItem`: DynamoDB replaces the item with the same partition key;
prepending together with first-match lookup models that. -/
def insertRow (s : Store) (k : Bytes) (v : Option Bytes) : Store :=
  { s with table := (k, v) :: s.table }

/-- Model of `GetItem` with `ConsistentRead`: `none` models `result.Item == nil`. -/
def rowLookup (s : Store) (k : Bytes) : Option (Option Bytes) :=
  (s.table.find? (fun r => decide (r.1 = k))).map (fun r => r.2)

/-- Model of the `s3.PutObject` state change: the object key is the hex encoding of
the KV key (`s3FileDB.write`). -/
def insertBlob (s : Store) (k v : Bytes) : Store :=
  { s with blobs := (hexEncode k, v) :: s.blobs }

/-- Body of the object stored under `hexEncode k`, if present. -/
def blobLookup (s : Store) (k : Bytes) : Option Bytes :=
  (s.blobs.find? (fun r => decide (r.1 = hexEncode k))).map (fun r => r.2)

/-- Model of `s3FileDB.write`: uploads the value under the hex-encoded key.  The
`fail` flag injects the S3 error path (`PutObject` returning an error),
which the source propagates without retry. -/
def s3write (fail : Bool) (s : Store) (k v : Bytes) : Except DBErr Store :=
  if fail then Except.error DBErr.blobWriteFailed else Except.ok (insertBlob s k v)

/-- Value-level model of `s3FileDB.read`: the body stored under
`hexEncode k`, or an error when the object is absent.  This is the value
the source's read loop produces in its terminating case (the whole body
delivered by the first `Read` call); the loop itself, with its
chunk-by-chunk behaviour, is modelled separately below for claim C8. -/
def s3readModel (s : Store) (k : Bytes) : Except DBErr Bytes :=
  match blobLookup s k with
  | none => Except.error DBErr.blobNotFound
  | some v => Except.ok v

/-- Model of `dynamoDB.Put`.  The source recurses once: an oversized pair first
writes the blob and then calls `Put(key, overSizedDataPrefix)`.  That
recursive call is unfolded here.  Its value argument is the fixed
sentinel, so it terminates exactly when
`len(key) + len(sentinel) ≤ dynamoWriteSizeLimit`; otherwise the source
re-enters the oversize branch with identical arguments forever
(rewriting the blob with the sentinel on every round), which is
modelled by `none`.  `some (s', r)` is a terminating call returning `r`
with resulting store `s'`. -/
def dynamoPut (blobFail : Bool) (s : Store) (key val : Bytes) :
    Option (Store × Except DBErr Unit) :=
  if key.length = 0 then some (s, Except.ok ())
  else if dynamoWriteSizeLimit < key.length + val.length then
    match s3write blobFail s key val with
    | Except.error e => some (s, Except.error e)
    | Except.ok s' =>
      if dynamoWriteSizeLimit < key.length + overSizedData.length then none
      else some (insertRow s' key (some overSizedData), Except.ok ())
  else some (insertRow s key (some val), Except.ok ())

/-- Model of `dynamoDB.Get`: absent item fails with `dataNotFoundErr`; a `nil`
`Val` yields the empty byte sequence; a `Val` equal to the sentinel
delegates to `s3FileDB.read`; otherwise the stored `Val` is returned. -/
def dynamoGet (s : Store) (key : Bytes) : Except DBErr Bytes :=
  match rowLookup s key with
  | none => Except.error DBErr.dataNotFound
  | some val =>
    match val with
    | none => Except.ok []
    | some v => if v = overSizedData then s3readModel s key else Except.ok v

/-- Model of `dynamoDB.Has`: calls `Get` and returns `(false, err)` on any error,
`(true, nil)` otherwise.  The second component models the returned Go
error value. -/
def dynamoHas (s : Store) (key : Bytes) : Bool × Option DBErr :=
  match dynamoGet s key with
  | Except.error e => (false, some e)
  | Except.ok _ => (true, none)

/-- Row lookup finds a freshly inserted row. -/
theorem rowLookup_insertRow_self (s : Store) (k : Bytes) (v : Option Bytes) :
    rowLookup (insertRow s k v) k = some v := by
  simp [rowLookup, insertRow, List.find?]

/-- Blob lookup finds a freshly written blob, and `insertRow` leaves
the blob container unchanged. -/
theorem blobLookup_insertBlob_self (s : Store) (k v : Bytes) :
    blobLookup (insertBlob s k v) k = some v := by
  simp [blobLookup, insertBlob, List.find?]

theorem blobLookup_insertRow (s : Store) (k : Bytes) (v : Option Bytes) (k' : Bytes) :
    blobLookup (insertRow s k v) k' = blobLookup s k' := by
  simp [blobLookup, insertRow]

/-- Claim C1 (amended): for every non-empty key `k` and value `v` with
`len(k) + len(v) ≤ ITEM_MAX` that is not the overflow sentinel literal,
`put(k, v)` writes the row `{Key: k, Val: v}` and a subsequent `get(k)`
returns exactly `v`.  The exclusion of the sentinel literal is forced by
the counterexample below. -/
theorem put_get_roundtrip_C1 (s : Store) (k v : Bytes) (hk : k ≠ [])
    (hsize : k.length + v.length ≤ dynamoWriteSizeLimit) (hv : v ≠ overSizedData) :
    dynamoPut false s k v = some (insertRow s k (some v), Except.ok ()) ∧
    dynamoGet (insertRow s k (some v)) k = Except.ok v := by
  have hk0 : ¬ k.length = 0 := by simpa [List.length_eq_zero] using hk
  have hns : ¬ dynamoWriteSizeLimit < k.length + v.length := not_lt.mpr hsize
  constructor
  · simp [dynamoPut, hk0, hns]
  · simp [dynamoGet, rowLookup_insertRow_self, hv]

/-- Witness for C1: the round trip at `k = [1]`, `v = [2]`. -/
theorem put_get_roundtrip_C1_witness :
    dynamoPut false store0 [1] [2] = some (insertRow store0 [1] (some [2]), Except.ok ()) ∧
    dynamoGet (insertRow store0 [1] (some [2])) [1] = Except.ok [2] :=
  put_get_roundtrip_C1 store0 [1] [2] (by decide) (by decide) (by decide)

/-- Counterexample to C1 as frozen: the 14-byte pair `k = [1]`,
`v = "oversizeditem"` satisfies the claim's hypotheses, but after the
put stores the row verbatim, `get` dispatches to the blob container
(which holds no object for `k`) and fails instead of returning `v`. -/
theorem put_get_roundtrip_C1_counterexample :
    dynamoPut false store0 [1] overSizedData
        = some (insertRow store0 [1] (some overSizedData), Except.ok ()) ∧
    dynamoGet (insertRow store0 [1] (some overSizedData)) [1]
        = Except.error DBErr.blobNotFound := by
  exact ⟨rfl, rfl⟩

/-- Claim C4 (amended): for every non-empty key `k` with
`len(k) + len(sentinel) ≤ ITEM_MAX` and value `v` with
`len(k) + len(v) > ITEM_MAX`, `put(k, v)` first writes the blob (body
`v` under the hex-encoded key) and then persists a row whose `Val` is
exactly the sentinel; if the blob write fails the error is returned and
no row is written.  The bound on `len(k)` is forced by the
counterexample below, and for `k = []` the source returns success
without touching either store. -/
theorem put_oversize_delegates_C4 (s : Store) (k v : Bytes) (hk : k ≠ [])
    (hover : dynamoWriteSizeLimit < k.length + v.length)
    (hfit : k.length + overSizedData.length ≤ dynamoWriteSizeLimit) :
    dynamoPut false s k v
        = some (insertRow (insertBlob s k v) k (some overSizedData), Except.ok ()) ∧
    rowLookup (insertRow (insertBlob s k v) k (some overSizedData)) k
        = some (some overSizedData) ∧
    blobLookup (insertRow (insertBlob s k v) k (some overSizedData)) k = some v ∧
    dynamoPut true s k v = some (s, Except.error DBErr.blobWriteFailed) := by
  have hk0 : ¬ k.length = 0 := by simpa [List.length_eq_zero] using hk
  have hns : ¬ dynamoWriteSizeLimit < k.length + overSizedData.length := not_lt.mpr hfit
  refine ⟨by simp [dynamoPut, hk0, hover, hns, s3write], rowLookup_insertRow_self _ _ _, ?_,
    by simp [dynamoPut, hk0, hover, s3write]⟩
  rw [blobLookup_insertRow]
  exact blobLookup_insertBlob_self _ _ _

/-- A 400 KiB byte string, used as an oversized value and as a giant key
in the concrete instances below. -/
def big400k : Bytes := List.replicate 409600 0

theorem big400k_length : big400k.length = 409600 := List.length_replicate 409600 0

/-- Witness for C4: key `[1]` with a 400 KiB value. -/
theorem put_oversize_delegates_C4_witness :
    dynamoPut false store0 [1] big400k
        = some (insertRow (insertBlob store0 [1] big400k) [1]
            (some overSizedData), Except.ok ()) ∧
    rowLookup (insertRow (insertBlob store0 [1] big400k) [1]
        (some overSizedData)) [1] = some (some overSizedData) ∧
    blobLookup (insertRow (insertBlob store0 [1] big400k) [1]
        (some overSizedData)) [1] = some big400k ∧
    dynamoPut true store0 [1] big400k
        = some (store0, Except.error DBErr.blobWriteFailed) :=
  put_oversize_delegates_C4 store0 [1] big400k (by decide)
    (by rw [big400k_length]; norm_num [dynamoWriteSizeLimit])
    (by norm_num [dynamoWriteSizeLimit, overSizedData])

/-- Counterexample to C4 as frozen: for a 400 KiB key (so that
`len(k) + len(sentinel)` still exceeds the limit) the recursive
`Put(key, sentinel)` re-enters the oversize branch with identical
arguments forever; the source never persists a sentinel row.  `none`
marks that divergence in the model. -/
theorem put_oversize_giant_key_C4_counterexample :
    dynamoPut false store0 big400k [1] = none := by
  have h1 : ¬ big400k.length = 0 := by rw [big400k_length]; norm_num
  have h2 : dynamoWriteSizeLimit < big400k.length + ([1] : Bytes).length := by
    rw [big400k_length]; norm_num [dynamoWriteSizeLimit]
  have h3 : dynamoWriteSizeLimit < big400k.length + overSizedData.length := by
    rw [big400k_length]; norm_num [dynamoWriteSizeLimit, overSizedData]
  unfold dynamoPut
  rw [if_neg h1, if_pos h2]
  simp [s3write, h3]

/-- Claim C5: `get` fails with `DataNotFound` when no row exists,
returns the empty byte sequence when the row's `Val` is nil, delegates
to the blob store when the `Val` equals the sentinel, and otherwise
returns the stored `Val` unchanged. -/
theorem get_dispatch_C5 (s : Store) (k : Bytes) :
    (rowLookup s k = none → dynamoGet s k = Except.error DBErr.dataNotFound) ∧
    (rowLookup s k = some none → dynamoGet s k = Except.ok []) ∧
    (∀ v, rowLookup s k = some (some v) → v = overSizedData →
        dynamoGet s k = s3readModel s k) ∧
    (∀ v, rowLookup s k = some (some v) → v ≠ overSizedData →
        dynamoGet s k = Except.ok v) :=
  ⟨fun h => by simp [dynamoGet, h], fun h => by simp [dynamoGet, h],
    fun v h hv => by simp [dynamoGet, h, hv],
    fun v h hv => by simp [dynamoGet, h, hv]⟩

/-- Witness for C5: the absent-row branch on the empty store. -/
theorem get_dispatch_C5_witness :
    dynamoGet store0 [1] = Except.error DBErr.dataNotFound :=
  (get_dispatch_C5 store0 [1]).1 rfl

/-- Claim C7 (amended): `has` returns `(true, nil)` exactly when `get`
succeeds, and on every error from `get` — `DataNotFound` included —
returns `false` together with that error.  The error is surfaced, not
swallowed; that correction is forced by the counterexample below. -/
theorem has_error_propagation_C7 (s : Store) (k : Bytes) :
    ((∃ v, dynamoGet s k = Except.ok v) → dynamoHas s k = (true, none)) ∧
    (∀ e, dynamoGet s k = Except.error e → dynamoHas s k = (false, some e)) := by
  cases h : dynamoGet s k with
  | ok v =>
    exact ⟨fun _ => by simp [dynamoHas, h], fun e he => absurd he (by simp)⟩
  | error e =>
    refine ⟨fun hv => ?_, fun e' he => ?_⟩
    · obtain ⟨v, hv⟩ := hv
      exact absurd hv (by simp)
    · injection he with h2
      subst h2
      simp [dynamoHas, h]

/-- Witness for C7: on the empty store `get [1]` fails with
`DataNotFound` and `has` returns `false` paired with that error. -/
theorem has_error_propagation_C7_witness :
    dynamoHas store0 [1] = (false, some DBErr.dataNotFound) :=
  (has_error_propagation_C7 store0 [1]).2 DBErr.dataNotFound rfl

/-- Counterexample to C7 as frozen: the claim requires `has` to map
`DataNotFound` to `false` with no error surfaced, but the source
returns `(false, err)` for every `get` error, `DataNotFound` included. -/
theorem has_notfound_error_C7_counterexample :
    dynamoGet store0 [1] = Except.error DBErr.dataNotFound ∧
    dynamoHas store0 [1] ≠ (false, none) :=
  ⟨rfl, by decide⟩

/-! ## The batch accumulator (`dynamoBatch`)

`dynamoBatch.Put` marshals a `(key, effective value)` pair and appends
it to `batchItems`; `dynamoBatch.Write` drains the residual buffer.
The `sync.WaitGroup` is modelled by two counters: `wgAdds`, the total
number of `wg.Add(1)` calls, and `wgPending`, the registered units that
have not yet signalled.  Chunk submissions to `writeCh` and spawned
blob-upload tasks complete asynchronously, so in this sequential model
a registered unit signals only while `flush` is blocked in `wg.Wait()`,
at which point all of them do (workers retry until success and the blob
upload retries forever); `wg.Wait()` therefore sets `wgPending` to
zero.  `submissions` records every `*batchWriteWorkerInput` sent to the
channel, in order, and `blobTasks` every spawned oversize upload. -/

/-- One marshalled `dynamodb.WriteRequest`: the row the put request
would store. -/
structure BatchItem where
  key : Bytes
  val : Bytes
deriving DecidableEq

/-- The mutable state of a `dynamoBatch` together with the observable
history of its interactions with the writer pool and the blob store. -/
structure BatchState where
  batchItems : List BatchItem
  size : Nat
  wgAdds : Nat
  wgPending : Nat
  submissions : List (List BatchItem)
  blobTasks : List (Bytes × Bytes)
deriving DecidableEq

/-- The state of a freshly created batch (`dynamoDB.NewBatch`). -/
def initBatch : BatchState :=
  { batchItems := [], size := 0, wgAdds := 0, wgPending := 0, submissions := [], blobTasks := [] }

/-- Model of `dynamoBatch.Put`: empty values are dropped; an oversized pair
registers one unit, spawns the blob upload and substitutes the sentinel
(whose length is what the size counter accumulates); the marshalled
item is appended; and when the buffer reaches `dynamoBatchSize` the
chunk is registered, submitted and the buffer reset. -/
def dynamoBatchPut (st : BatchState) (key val : Bytes) : BatchState :=
  if val.length = 0 then st
  else
    let st1 := if dynamoWriteSizeLimit < key.length + val.length then
        { st with wgAdds := st.wgAdds + 1, wgPending := st.wgPending + 1,
                  blobTasks := st.blobTasks ++ [(key, val)] }
      else st
    let effVal := if dynamoWriteSizeLimit < key.length + val.length then overSizedData else val
    let st2 := { st1 with batchItems := st1.batchItems ++ [{ key := key, val := effVal }],
                          size := st1.size + effVal.length }
    if st2.batchItems.length = dynamoBatchSize then
      { st2 with wgAdds := st2.wgAdds + 1, wgPending := st2.wgPending + 1,
                 submissions := st2.submissions ++ [st2.batchItems],
                 batchItems := [], size := 0 }
    else st2

/-- The loop of `dynamoBatch.Write`, verbatim: while items remain, the
source re-slices `batch.batchItems` to its suffix past the first
`dynamoBatchSize` items when more than `dynamoBatchSize` remain — and
then submits `batch.batchItems` (the suffix just assigned, not the
`writeRequest` prefix slice) to the channel; with at most
`dynamoBatchSize` remaining it submits the whole buffer.  Returns the
final buffer, the submission history and the `wg.Add` count.  `fuel`
only bounds the iteration count: the source's loop runs
`ceil(numRem / dynamoBatchSize)` iterations whenever it is entered with
`numRem = len(batchItems)` (as `Write` does), so `fuel = numRem` is
never exhausted on such states; on other states the source would panic
slicing or loop forever. -/
def writeLoop : Nat → List BatchItem → Nat → List (List BatchItem) → Nat →
    List BatchItem × List (List BatchItem) × Nat
  | 0, items, _, subs, adds => (items, subs, adds)
  | fuel + 1, items, numRem, subs, adds =>
    if 0 < numRem then
      if dynamoBatchSize < numRem then
        writeLoop fuel (items.drop dynamoBatchSize)
          (numRem - (items.take dynamoBatchSize).length)
          (subs ++ [items.drop dynamoBatchSize]) (adds + 1)
      else
        writeLoop fuel items (numRem - items.length) (subs ++ [items]) (adds + 1)
    else (items, subs, adds)

/-- Model of `dynamoBatch.Write` (the flush): when `size` is zero it returns
success immediately — without waiting on the completion group;
otherwise it runs the submission loop and blocks in `wg.Wait()` until
every registered unit has signalled.  The boolean records whether
`wg.Wait()` was reached. -/
def dynamoBatchWrite (st : BatchState) : BatchState × Bool :=
  if st.size = 0 then (st, false)
  else
    let r := writeLoop st.batchItems.length st.batchItems st.batchItems.length
      st.submissions st.wgAdds
    ({ st with batchItems := r.1, submissions := r.2.1, wgAdds := r.2.2, wgPending := 0 }, true)

/-- A sequence of `dynamoBatch.Put` calls. -/
def applyPuts (st : BatchState) (ops : List (Bytes × Bytes)) : BatchState :=
  ops.foldl (fun st p => dynamoBatchPut st p.1 p.2) st

/-- The puts of a sequence that the accumulator records (those with a
non-empty value). -/
def nonEmptyCount (ops : List (Bytes × Bytes)) : Nat :=
  ops.countP (fun p => decide (p.2.length ≠ 0))

/-- The inductive invariant of the accumulator after any sequence of
puts that recorded `n` items: the buffer stays strictly below one
chunk, the size counter is the byte count of the buffered effective
values, every buffered value is non-empty, and the chunks already
submitted plus the buffer account for all `n` recorded items. -/
def batchInv (st : BatchState) (n : Nat) : Prop :=
  st.batchItems.length < dynamoBatchSize ∧
  st.size = (st.batchItems.map (fun d => d.val.length)).sum ∧
  (∀ d ∈ st.batchItems, d.val.length ≠ 0) ∧
  dynamoBatchSize * st.submissions.length + st.batchItems.length = n

theorem batchInv_initBatch : batchInv initBatch 0 := by
  refine ⟨?_, ?_, ?_, ?_⟩ <;> simp [initBatch, dynamoBatchSize]

theorem batchInv_put (st : BatchState) (k v : Bytes) (n : Nat) (h : batchInv st n) :
    batchInv (dynamoBatchPut st k v) (n + (if v.length = 0 then 0 else 1)) := by
  obtain ⟨hlt, hsz, hne, hcount⟩ := h
  by_cases hv : v.length = 0
  · simp only [dynamoBatchPut, hv, if_pos rfl]
    exact ⟨hlt, hsz, hne, by simpa using hcount⟩
  · simp only [if_neg hv]
    by_cases hov : dynamoWriteSizeLimit < k.length + v.length
    · simp only [dynamoBatchPut, if_neg hv, if_pos hov, List.length_append,
        List.length_cons, List.length_nil, Nat.zero_add]
      by_cases hfull : st.batchItems.length + 1 = dynamoBatchSize
      · rw [if_pos hfull]
        refine ⟨by simp [dynamoBatchSize], by simp, by simp, ?_⟩
        simp only [List.length_append, List.length_cons, List.length_nil]
        simp only [dynamoBatchSize] at hcount hfull ⊢
        omega
      · rw [if_neg hfull]
        refine ⟨?_, ?_, ?_, ?_⟩
        · simp only [List.length_append, List.length_cons, List.length_nil]
          simp only [dynamoBatchSize] at hlt hfull ⊢
          omega
        · rw [hsz]
          simp [List.sum_append]
        · intro d hd
          rcases List.mem_append.mp hd with h1 | h2
          · exact hne d h1
          · simp only [List.mem_singleton] at h2
            subst h2
            simp [overSizedData]
        · simp only [List.length_append, List.length_cons, List.length_nil]
          simp only [dynamoBatchSize] at hcount ⊢
          omega
    · simp only [dynamoBatchPut, if_neg hv, if_neg hov, List.length_append,
        List.length_cons, List.length_nil, Nat.zero_add]
      by_cases hfull : st.batchItems.length + 1 = dynamoBatchSize
      · rw [if_pos hfull]
        refine ⟨by simp [dynamoBatchSize], by simp, by simp, ?_⟩
        simp only [List.length_append, List.length_cons, List.length_nil]
        simp only [dynamoBatchSize] at hcount hfull ⊢
        omega
      · rw [if_neg hfull]
        refine ⟨?_, ?_, ?_, ?_⟩
        · simp only [List.length_append, List.length_cons, List.length_nil]
          simp only [dynamoBatchSize] at hlt hfull ⊢
          omega
        · rw [hsz]
          simp [List.sum_append]
        · intro d hd
          rcases List.mem_append.mp hd with h1 | h2
          · exact hne d h1
          · simp only [List.mem_singleton] at h2
            subst h2
            exact hv
        · simp only [List.length_append, List.length_cons, List.length_nil]
          simp only [dynamoBatchSize] at hcount ⊢
          omega

theorem applyPuts_inv (ops : List (Bytes × Bytes)) :
    ∀ (st : BatchState) (n : Nat), batchInv st n →
      batchInv (applyPuts st ops) (n + nonEmptyCount ops) := by
  induction ops with
  | nil =>
    intro st n h
    simpa [applyPuts, nonEmptyCount] using h
  | cons p rest ih =>
    intro st n h
    have h1 := batchInv_put st p.1 p.2 n h
    have h2 := ih (dynamoBatchPut st p.1 p.2) _ h1
    have hstep : applyPuts st (p :: rest) = applyPuts (dynamoBatchPut st p.1 p.2) rest := rfl
    rw [hstep]
    have hn : n + (if p.2.length = 0 then 0 else 1) + nonEmptyCount rest
        = n + nonEmptyCount (p :: rest) := by
      simp only [nonEmptyCount, List.countP_cons]
      by_cases hp : p.2.length = 0
      · simp [hp]
      · simp [hp]
        omega
    rw [hn] at h2
    exact h2

theorem writeLoop_zero (fuel : Nat) (items : List BatchItem)
    (subs : List (List BatchItem)) (adds : Nat) :
    writeLoop fuel items 0 subs adds = (items, subs, adds) := by
  cases fuel <;> simp [writeLoop]

/-- One iteration finishes the loop whenever it is entered with at most
`dynamoBatchSize` items, `numRem` equal to the buffer length and fuel
equal to `numRem`: the whole residual buffer is submitted once. -/
theorem writeLoop_small (items : List BatchItem) (subs : List (List BatchItem)) (adds : Nat)
    (h0 : 0 < items.length) (h25 : ¬ dynamoBatchSize < items.length) :
    writeLoop items.length items items.length subs adds
      = (items, subs ++ [items], adds + 1) := by
  obtain ⟨m, hm⟩ : ∃ m, items.length = m + 1 := ⟨items.length - 1, by omega⟩
  rw [hm, writeLoop]
  rw [if_pos (by omega : 0 < m + 1), if_neg (hm ▸ h25)]
  rw [show m + 1 - items.length = 0 by omega]
  exact writeLoop_zero _ _ _ _

/-- Flushing a state that satisfies the invariant: the submission
history afterwards accounts for exactly `ceil(n / dynamoBatchSize)`
batch requests, and whenever the residual size is non-zero the flush
reaches `wg.Wait()` and returns with no registered unit pending. -/
theorem flush_of_inv (st : BatchState) (n : Nat) (h : batchInv st n) :
    (dynamoBatchWrite st).1.submissions.length
        = (n + (dynamoBatchSize - 1)) / dynamoBatchSize ∧
    (st.size ≠ 0 →
      (dynamoBatchWrite st).1.wgPending = 0 ∧ (dynamoBatchWrite st).2 = true) := by
  obtain ⟨hlt, hsz, hne, hcount⟩ := h
  by_cases hz : st.size = 0
  · have hitems : st.batchItems = [] := by
      cases hb : st.batchItems with
      | nil => rfl
      | cons d rest =>
        exfalso
        have hd : d.val.length ≠ 0 := hne d (by rw [hb]; exact List.mem_cons_self d rest)
        rw [hsz, hb] at hz
        simp only [List.map_cons, List.sum_cons] at hz
        omega
    refine ⟨?_, fun hc => absurd hz hc⟩
    simp only [dynamoBatchWrite, if_pos hz]
    rw [hitems] at hcount
    simp only [List.length_nil] at hcount
    simp only [dynamoBatchSize] at hcount ⊢
    omega
  · have h0 : 0 < st.batchItems.length := by
      cases hb : st.batchItems with
      | nil =>
        exfalso
        apply hz
        rw [hsz, hb]
        simp
      | cons d rest => simp
    have hloop := writeLoop_small st.batchItems st.submissions st.wgAdds h0 (by omega)
    refine ⟨?_, fun _ => ?_⟩
    · simp only [dynamoBatchWrite, if_neg hz, hloop]
      simp only [List.length_append, List.length_cons, List.length_nil]
      simp only [dynamoBatchSize] at hcount hlt ⊢
      omega
    · constructor <;> simp [dynamoBatchWrite, if_neg hz, hloop]

/-- Claim C10: after every sequence of `dynamoBatch.Put` calls on a
fresh batch, the pending items buffer holds strictly fewer than
`dynamoBatchSize = 25` items — a put that fills the chunk submits and
resets it within that same put. -/
theorem batch_chunk_invariant_C10 (ops : List (Bytes × Bytes)) :
    (applyPuts initBatch ops).batchItems.length < dynamoBatchSize :=
  (applyPuts_inv ops initBatch 0 batchInv_initBatch).1

/-- Claim C3 (amended): after any sequence of puts on a fresh batch,
flushing submits in total exactly `ceil(non_empty_count / BATCH_MAX)`
batch requests (eager chunk emissions during the puts plus the residual
slice), and — provided the residual size is non-zero — returns only
after every registered unit has signalled.  The proviso is forced by
the counterexample below: when the residual size is zero the source
returns without waiting. -/
theorem batch_flush_C3 (ops : List (Bytes × Bytes)) :
    (dynamoBatchWrite (applyPuts initBatch ops)).1.submissions.length
        = (nonEmptyCount ops + (dynamoBatchSize - 1)) / dynamoBatchSize ∧
    ((applyPuts initBatch ops).size ≠ 0 →
      (dynamoBatchWrite (applyPuts initBatch ops)).1.wgPending = 0 ∧
      (dynamoBatchWrite (applyPuts initBatch ops)).2 = true) := by
  have h := flush_of_inv (applyPuts initBatch ops) (0 + nonEmptyCount ops)
    (applyPuts_inv ops initBatch 0 batchInv_initBatch)
  simpa using h

/-- Witness for C3: one small put then flush submits one request and
waits. -/
theorem batch_flush_C3_witness :
    (dynamoBatchWrite (applyPuts initBatch [([1], [2])])).1.submissions.length
        = (nonEmptyCount [([1], [2])] + (dynamoBatchSize - 1)) / dynamoBatchSize ∧
    (dynamoBatchWrite (applyPuts initBatch [([1], [2])])).1.wgPending = 0 ∧
    (dynamoBatchWrite (applyPuts initBatch [([1], [2])])).2 = true :=
  ⟨(batch_flush_C3 [([1], [2])]).1, (batch_flush_C3 [([1], [2])]).2 (by decide)⟩

/-- The 25 puts used in the C3 counterexample. -/
def ops25 : List (Bytes × Bytes) := List.replicate 25 ([1], [2])

/-- Counterexample to C3 as frozen: 25 puts submit the full chunk
eagerly (registering one unit) and reset the buffer, so at flush time
`size = 0` and `Write` returns immediately — `wg.Wait()` is never
reached and the registered unit has not signalled when flush returns. -/
theorem batch_flush_C3_counterexample :
    (applyPuts initBatch ops25).wgAdds = 1 ∧
    (applyPuts initBatch ops25).size = 0 ∧
    (dynamoBatchWrite (applyPuts initBatch ops25)).2 = false ∧
    (dynamoBatchWrite (applyPuts initBatch ops25)).1.wgPending = 1 := by
  set_option maxRecDepth 4000 in decide

/-- The 26-item residual buffer of the C2 evaluation, keys `[0] … [25]`. -/
def items26 : List BatchItem := (List.range 26).map (fun i => { key := [i], val := [1] })

/-- A batch state holding 26 residual items at flush time (`size` is
the byte count of the 26 one-byte values, as the source would have
accumulated it). -/
def st26 : BatchState :=
  { batchItems := items26, size := 26, wgAdds := 0, wgPending := 0,
    submissions := [], blobTasks := [] }

/-- Claim C2, evaluated at the failing input: flushing a 26-item buffer
submits the one-item suffix `[{key := [25]}]` twice — the source
re-slices `batch.batchItems` to the suffix and submits that, never the
25-item prefix slice — so the first 25 residual items are never
submitted and the 26th is submitted twice. -/
theorem batch_flush_suffix_C2 :
    st26.batchItems.length = 26 ∧
    (dynamoBatchWrite st26).1.submissions
        = [[{ key := [25], val := [1] }], [{ key := [25], val := [1] }]] := by decide

/-! ## The writer-pool worker (`createBatchWriteWorker`)

One `batchWriteWorkerInput` taken from the channel is processed by a
retry loop around `BatchWriteItem`.  The underlying store is modelled
as an oracle: `resps` lists, in order, the outcome of each completed
`BatchWriteItem` call — `out` is the call's `*BatchWriteItemOutput`
(`none` models a nil pointer, `some unproc` a result whose
`UnprocessedItems[tableName]` is `unproc`) and `err` whether the call
returned an error.  The worker makes one call per consumed response
and stops at the first full success.  The model returns `none` when the
source would dereference a nil output — the source reads
`BatchWriteItemOutput.UnprocessedItems` unconditionally, before ever
inspecting `err`. -/

/-- The outcome of one `BatchWriteItem` call. -/
structure BWResp where
  out : Option (List BatchItem)
  err : Bool
deriving DecidableEq

/-- A full success: no error and an empty unprocessed-items set.  Only
such a response exits the retry loop. -/
def fullSuccess (r : BWResp) : Bool := !r.err && r.out == some []

/-- What the worker did while processing one request: the items of each
completed call, how many times it signalled the request's barrier
(`wg.Done`), its local failure counter afterwards, and whether the
retry loop exited. -/
structure WorkerTrace where
  calls : List (List BatchItem)
  signals : Nat
  failCount : Nat
  done : Bool
deriving DecidableEq

/-- The retry loop of `createBatchWriteWorker` for one request, driven
by the response oracle; `fc` is the worker's failure counter on entry.
When the oracle is exhausted before a full success the worker is still
mid-loop: no signal, the counter as accumulated.  `none` models the nil
dereference of a `none` output. -/
def runWorker : List BatchItem → List BWResp → Nat → Option WorkerTrace
  | _, [], fc => some { calls := [], signals := 0, failCount := fc, done := false }
  | items, r :: rest, fc =>
    match r.out with
    | none => none
    | some unproc =>
      if r.err = false ∧ unproc = [] then
        some { calls := [items], signals := 1, failCount := 0, done := true }
      else
        let fc' := if r.err then fc + 1 else fc
        let items' := if unproc = [] then items else unproc
        match runWorker items' rest fc' with
        | none => none
        | some t =>
          some { calls := items :: t.calls, signals := t.signals,
                 failCount := t.failCount, done := t.done }

/-- The resubmission discipline of the claim: whenever a call's
response carried unprocessed items, the next call submits exactly
those; otherwise the next call resubmits the same items. -/
def followsUnprocessed : List (List BatchItem) → List BWResp → Prop
  | c1 :: c2 :: cs, r :: rs =>
    (c2 = if r.out.getD [] = [] then c1 else r.out.getD []) ∧
      followsUnprocessed (c2 :: cs) rs
  | _, _ => True

/-- Claim C6: for every request processed by a worker (any entry
failure count, any oracle behaviour that does not make the loop stick
or crash), the barrier is signalled exactly once and only when a call
has returned with no error and an empty unprocessed set; the first call
submits the request's own items and every retry resubmits exactly the
previous call's unprocessed items (or the same items when only an error
occurred); and the failure counter is zeroed exactly on that full
success. -/
theorem worker_barrier_C6 (items : List BatchItem) (resps : List BWResp) (fc : Nat)
    (t : WorkerTrace) (hrun : runWorker items resps fc = some t) :
    t.signals = (if t.done then 1 else 0) ∧
    t.done = resps.any fullSuccess ∧
    (t.done = true → t.failCount = 0) ∧
    (t.done = false → t.failCount = fc + resps.countP (fun r => r.err)) ∧
    (t.calls.head? = some items ∨ t.calls = []) ∧
    followsUnprocessed t.calls resps := by
  induction resps generalizing items fc t with
  | nil =>
    rw [runWorker] at hrun
    injection hrun with h
    subst h
    exact ⟨rfl, rfl, by simp, by simp, Or.inr rfl, trivial⟩
  | cons r rest ih =>
    obtain ⟨out, err⟩ := r
    cases out with
    | none => simp [runWorker] at hrun
    | some unproc =>
      by_cases hsucc : err = false ∧ unproc = []
      · obtain ⟨he, hu⟩ := hsucc
        subst he
        subst hu
        simp only [runWorker] at hrun
        simp at hrun
        subst hrun
        refine ⟨rfl, ?_, fun _ => rfl, by simp, Or.inl rfl, trivial⟩
        simp [fullSuccess, List.any_cons]
      · simp only [runWorker] at hrun
        rw [if_neg hsucc] at hrun
        cases hr : runWorker (if unproc = [] then items else unproc) rest
            (if err = true then fc + 1 else fc) with
        | none =>
          rw [hr] at hrun
          exact absurd hrun (by simp)
        | some t' =>
          rw [hr] at hrun
          simp at hrun
          subst hrun
          obtain ⟨ih1, ih2, ih3, ih4, ih5, ih6⟩ := ih _ _ _ hr
          have hfs : fullSuccess ⟨some unproc, err⟩ = false := by
        -- not a full success: either an error or a non-empty unprocessed set
            rcases not_and_or.mp hsucc with hne | hne
          -- err must be true
            · have : err = true := by
                cases err
                · exact absurd rfl hne
                · rfl
              simp [fullSuccess, this]
            · simp [fullSuccess, hne]
          refine ⟨ih1, ?_, ih3, ?_, Or.inl rfl, ?_⟩
          · simp [List.any_cons, hfs, ih2]
          · intro hd
            have h4 := ih4 hd
            rw [h4]
            cases err
            · simp [List.countP_cons]
            · simp [List.countP_cons]
              omega
          · cases hc : t'.calls with
            | nil => trivial
            | cons c cs =>
              rw [hc] at ih5 ih6
              rcases ih5 with h5 | h5
              · injection h5 with h5
                exact ⟨by simpa using h5, ih6⟩
              · cases h5

/-- Witness for C6: a first call answered with one unprocessed item and
an error, then a fully successful retry on exactly that item. -/
theorem worker_barrier_C6_witness :
    runWorker [{ key := [1], val := [1] }]
        [{ out := some [{ key := [2], val := [2] }], err := true },
         { out := some [], err := false }] 0
      = some { calls := [[{ key := [1], val := [1] }], [{ key := [2], val := [2] }]],
               signals := 1, failCount := 0, done := true } ∧
    ({ calls := [[{ key := [1], val := [1] }], [{ key := [2], val := [2] }]],
       signals := 1, failCount := 0, done := true } : WorkerTrace).signals = 1 := by
  refine ⟨rfl, ?_⟩
  have h := worker_barrier_C6 [{ key := [1], val := [1] }]
      [{ out := some [{ key := [2], val := [2] }], err := true },
       { out := some [], err := false }] 0
      { calls := [[{ key := [1], val := [1] }], [{ key := [2], val := [2] }]],
        signals := 1, failCount := 0, done := true } rfl
  exact h.1

/-- Claim C9: the worker reads the call result's unprocessed-items
field unconditionally — before ever inspecting the error — so its loop
body is well-defined exactly under the hypothesis that `BatchWriteItem`
returns a non-nil output even on error: with all outputs non-nil the
worker never crashes, while a single nil output (here: on an erroring
first call) is a nil dereference. -/
theorem worker_nil_output_C9 :
    (∀ (items : List BatchItem) (resps : List BWResp) (fc : Nat),
        (∀ r ∈ resps, r.out ≠ none) → (runWorker items resps fc).isSome = true) ∧
    runWorker [{ key := [1], val := [1] }] [{ out := none, err := true }] 0 = none := by
  constructor
  · intro items resps fc
    induction resps generalizing items fc with
    | nil =>
      intro _
      rfl
    | cons r rest ih =>
      intro hall
      obtain ⟨out, err⟩ := r
      cases out with
      | none =>
        have := hall ⟨none, err⟩ (List.mem_cons_self _ _)
        simp at this
      | some unproc =>
        simp only [runWorker]
        by_cases hsucc : err = false ∧ unproc = []
        · rw [if_pos hsucc]
          rfl
        · rw [if_neg hsucc]
          have hrec := ih (if unproc = [] then items else unproc)
            (if err = true then fc + 1 else fc)
            (fun r hr => hall r (List.mem_cons_of_mem _ hr))
          cases hr : runWorker (if unproc = [] then items else unproc) rest
              (if err = true then fc + 1 else fc) with
          | none =>
            rw [hr] at hrec
            simp at hrec
          | some t => rfl
  · rfl

/-- Witness for C9: the all-outputs-non-nil direction at the empty
oracle. -/
theorem worker_nil_output_C9_witness : (runWorker [] [] 0).isSome = true :=
  worker_nil_output_C9.1 [] [] 0 (by simp)

/-! ## The blob read loop (`s3FileDB.read`)

`read` sizes a buffer to the advertised content length, then loops
`for totalReadSize < bodySize`, calling `output.Body.Read(buf)`,
appending `buf[:currReadSize]` and then truncating the buffer with
`buf = buf[:0]` — so from the second iteration on, `Read` is called
with a zero-length buffer.  The body stream is modelled as the list of
chunks successive `Read` calls would deliver into an ample buffer: a
call returns the head chunk truncated to the buffer length (the
untaken remainder stays at the front), and end-of-stream is an `EOF`
error with zero bytes — the only error the model's stream produces,
and the source tolerates any error containing `EOF`, so the abort
branch never fires here. -/

/-- One `output.Body.Read` call with a `bufLen`-byte buffer: the bytes
delivered, the remaining stream, and whether it reported `EOF`. -/
def bodyRead : List (List Nat) → Nat → List Nat × List (List Nat) × Bool
  | [], _ => ([], [], true)
  | c :: cs, bufLen =>
    (c.take bufLen, if c.drop bufLen = [] then cs else c.drop bufLen :: cs, false)

/-- The read loop of `s3FileDB.read`.  `bufLen` is the current buffer
length — `bodySize` on the first iteration, `0` ever after, mirroring
`buf = buf[:0]`.  `fuel` bounds the iterations; `none` means the fuel
ran out with the loop still running.  Any terminating execution uses at
most two iterations (only the first can deliver bytes), so the
`contentLength + 1` fuel supplied by `s3readChunks` is never exhausted
on a terminating run. -/
def s3readLoop : Nat → List (List Nat) → Nat → Nat → Nat → List Nat → Option (List Nat)
  | 0, _, _, _, _, _ => none
  | fuel + 1, chunks, bufLen, bodySize, totalRead, acc =>
    if totalRead < bodySize then
      s3readLoop fuel (bodyRead chunks bufLen).2.1 0 bodySize
        (totalRead + (bodyRead chunks bufLen).1.length) (acc ++ (bodyRead chunks bufLen).1)
    else some acc

/-- Model of `s3FileDB.read` on a stream delivering the given chunks, for an
object of the given advertised content length. -/
def s3readChunks (chunks : List (List Nat)) (contentLength : Nat) : Option (List Nat) :=
  s3readLoop (contentLength + 1) chunks contentLength contentLength 0 []

/-- Once the buffer has been truncated to length zero, no iteration
makes progress: with `totalRead` still short of `bodySize` the loop
never terminates, whatever the stream holds and however much fuel is
granted. -/
theorem s3readLoop_zero_buffer (fuel : Nat) :
    ∀ (chunks : List (List Nat)) (bodySize totalRead : Nat) (acc : List Nat),
      totalRead < bodySize → s3readLoop fuel chunks 0 bodySize totalRead acc = none := by
  induction fuel with
  | zero =>
    intro chunks bodySize totalRead acc _
    rfl
  | succ f ih =>
    intro chunks bodySize totalRead acc h
    rw [s3readLoop, if_pos h]
    cases chunks with
    | nil =>
      simp only [bodyRead, List.length_nil, Nat.add_zero]
      exact ih _ _ _ _ h
    | cons c cs =>
      simp only [bodyRead, List.take_zero, List.length_nil, Nat.add_zero]
      exact ih _ _ _ _ h

/-- Claim C8, evaluated at the failing input: a 2-byte body delivered
in one chunk is read back whole, but the same body delivered in two
chunks stalls — after the first chunk the buffer is truncated to
length zero, every later `Read` returns zero bytes, and the loop never
reaches the content length, for any amount of fuel. -/
theorem s3read_stall_C8 :
    s3readChunks [[1, 2]] 2 = some [1, 2] ∧
    s3readChunks [[1], [2]] 2 = none ∧
    (∀ (fuel : Nat) (acc : List Nat), s3readLoop fuel [[2]] 0 2 1 acc = none) :=
  ⟨rfl, rfl, fun fuel acc => s3readLoop_zero_buffer fuel [[2]] 2 1 acc (by norm_num)⟩

end KlaytnDynamo
